import Mathlib

/-!
Verification of the serving-graph execution engine described by the repository's
documentation (a notebook exercising `mlrun.serving`: router/flow topologies,
`set_topology`, `add_model`/`add_route`, `storey.Extend` steps, `$remote` steps,
`>>` queue steps, and `to_mock_server().test(...)`).  The engine implementation
itself is not part of the source tree, so every definition below is modelled
from the specification's data model (§3), component design (§4) and external
interfaces (§6), instantiated on the concrete scenarios the notebook shows.
-/

namespace MLServing

/-- Modelled from the spec: structured key-value payloads carried in event
bodies (JSON-like values; the missing engine serializes bodies as structured
data, §6 "body is the Event payload serialized as structured data"). -/
inductive JVal where
  | null : JVal
  | str : String → JVal
  | int : Int → JVal
  | arr : List JVal → JVal
  | obj : List (String × JVal) → JVal

/-- Modelled from the spec: a structured body is an ordered list of
key-value fields (§3 "body (structured key-value payload)"). -/
abbrev Body := List (String × JVal)

/-- Modelled from the spec: the Event envelope of §3 — request path (kept as
its split segments), structured body, and the correlation id generated once
per external request. -/
structure Event where
  path : List String
  body : Body
  id : String

/-- Modelled from the spec: a terminal Result correlates back via the id and
carries the responding step's fields (`model_name`, `outputs`, ...); a flow
with no responding step yields only the correlation id (empty fields). -/
structure Result where
  id : String
  fields : Body

/-- Modelled from the spec: the engine's error kinds used by the claims
(§7); `queueStalled` is the deployed scheduler's out-of-fuel marker, which
the equivalence proof shows is never reached. -/
inductive GError where
  | routeNotFound : String → GError
  | topologyConflict : GError
  | noTopology : GError
  | queueStalled : GError
deriving DecidableEq

/-- Modelled from the spec: the two mutually exclusive topology modes (§3). -/
inductive Topology where
  | router : Topology
  | flow : Topology
deriving DecidableEq

/-- Modelled from the spec: step operations of §3/§4 — `extendOp` is the
`storey.Extend` transform adding fields to the body, `routerOp` holds the
route-name table of a nested model router, `queueOp` is a `>>` stream step,
`remoteOp` a `$remote` HTTP step, and `handlerOp` a user handler (such as the
notebook's `echo_handler`) transforming the body. -/
inductive Op where
  | extendOp : Body → Op
  | routerOp : List String → Op
  | queueOp : String → Op
  | remoteOp : String → Op
  | handlerOp : (Body → Body) → Op

/-- Modelled from the spec: a named flow step with its operation and the
`respond()` marker (§2 "a step marked responding produces the final result"). -/
structure FStep where
  name : String
  op : Op
  responding : Bool

/-- Modelled from the spec: a Graph owns a topology tag (immutable once set,
§3), a route table when in router topology (`add_model`), and an ordered
chain of flow steps when in flow topology (§6 "an ordered list of step
declarations"). -/
structure Graph where
  topology : Option Topology := none
  routes : List String := []
  steps : List FStep := []

/-- Modelled from the spec: `setTopology` of §4.1 — the topology tag is
immutable once set (the notebook: "Once the topology is set, you cannot
change an existing function toplogy"); a conflicting second call fails with
a topology-conflict error and leaves the graph untouched. -/
def set_topology (g : Graph) (t : Topology) : Except GError Graph :=
  match g.topology with
  | none => .ok { g with topology := some t }
  | some t₀ => if t = t₀ then .ok g else .error .topologyConflict

/-- Field lookup in a structured body (first binding of the key wins). -/
def lookupF (k : String) : Body → Option JVal
  | [] => none
  | (k₀, v) :: rest => if k₀ = k then some v else lookupF k rest

/-- Insert-or-overwrite of one field in a structured body, preserving the
order of the remaining fields (dictionary assignment semantics). -/
def setField (b : Body) (k : String) (v : JVal) : Body :=
  match b with
  | [] => [(k, v)]
  | (k₀, v₀) :: rest => if k₀ = k then (k, v) :: rest else (k₀, v₀) :: setField rest k v

/-- Modelled from the spec: applying a field set to a body, one dictionary
assignment per field — the effect of `storey.Extend` on the event body. -/
def updFields (b : Body) (fields : Body) : Body :=
  fields.foldl (fun acc kv => setField acc kv.1 kv.2) b

/-- Modelled from the spec: the `inputs` rows a model server's predict reads
from the request body (the notebook's `ClassifierModel.predict`). -/
def getInputs (b : Body) : List JVal :=
  match lookupF "inputs" b with
  | some (.arr rows) => rows
  | _ => []

/-- Modelled from the spec: §6 invocation path convention
`/{routing-p.}/{model-or-route-name}/{action}` with the fixed two-segment
routing position of `/v2/models/...`, so the dispatch key is segment 2. -/
def extractRouteKey (path : List String) : Option String :=
  path[2]?

/-- Modelled from the spec: Router-topology dispatch (§4.2): extract the key
from the fixed path position, O(1) table lookup, unknown key fails with
`routeNotFound`; a hit runs the bound `ClassifierModel` task, whose per-row
prediction is the `classify` parameter, and responds with `model_name` and
one output per input row. -/
def routerServe (classify : JVal → JVal) (routes : List String) (ev : Event) :
    Except GError Result :=
  match extractRouteKey ev.path with
  | none => .error (.routeNotFound "")
  | some key =>
    if key ∈ routes then
      .ok { id := ev.id
            fields := [("model_name", JVal.str key),
                       ("outputs", JVal.arr ((getInputs ev.body).map classify))] }
    else .error (.routeNotFound key)

/-- Modelled from the spec: one step's effect on the event (§4.3 Step
Executor).  `rc` is the remote transport: it receives the target url and the
event body and returns the response body; the correlation id is propagated
unchanged across the hop (§4.5).  A locally-resolved queue is a pass-through
for the inline executor (§4.6). -/
def applyOp (classify : JVal → JVal) (rc : String → Body → Body) (op : Op)
    (ev : Event) : Except GError Event :=
  match op with
  | .extendOp fields => .ok { ev with body := updFields ev.body fields }
  | .routerOp routes =>
    match routerServe classify routes ev with
    | .ok r => .ok { ev with body := r.fields }
    | .error e => .error e
  | .queueOp _ => .ok ev
  | .remoteOp url => .ok { ev with body := rc url ev.body }
  | .handlerOp f => .ok { ev with body := f ev.body }

/-- True for the operations that cannot fail (every op except a nested
router, whose dispatch may miss). -/
def opTotal : Op → Bool
  | .routerOp _ => false
  | _ => true

/-- True exactly for a nested router step's operation. -/
def isRouterOp : Op → Bool
  | .routerOp _ => true
  | _ => false

/-- True exactly for a queue step's operation. -/
def isQueueOp : Op → Bool
  | .queueOp _ => true
  | _ => false

/-- Modelled from the spec: the Local Simulation Harness's inline flow walk
(§4.6 / §2): steps run in declaration order on the threaded event; a step
marked responding produces the final Result; if the chain ends with no
responding step the caller gets only the correlation id.  Also returns the
names of the steps executed, in order. -/
def flowRun (classify : JVal → JVal) (rc : String → Body → Body) :
    List FStep → Event → Except GError (Result × List String)
  | [], ev => .ok ({ id := ev.id, fields := [] }, [])
  | st :: rest, ev =>
    match applyOp classify rc st.op ev with
    | .error e => .error e
    | .ok ev₁ =>
      if st.responding then .ok ({ id := ev₁.id, fields := ev₁.body }, [st.name])
      else
        match flowRun classify rc rest ev₁ with
        | .error e => .error e
        | .ok (r, tr) => .ok (r, st.name :: tr)

/-- Terminal Result of the Local Simulation Harness run (trace dropped). -/
def mockRun (classify : JVal → JVal) (rc : String → Body → Body)
    (steps : List FStep) (ev : Event) : Except GError Result :=
  (flowRun classify rc steps ev).map Prod.fst

/-- Modelled from the spec: one producer context of the deployed-transport
execution (§4.4/§5): the chain runs inline until a queue step, where the
event is published and the rest of the chain is handed off to the
downstream consumer context. -/
inductive SegOutcome where
  | done : Result → SegOutcome
  | handoff : Event → List FStep → SegOutcome
  | failed : GError → SegOutcome

/-- Modelled from the spec: the deployed-transport walk of one execution
context: a locally-resolved queue step publishes the event and hands the
remaining chain to the consumer context; other steps run inline exactly as
the Step Executor prescribes. -/
def runSeg (classify : JVal → JVal) (rc : String → Body → Body) :
    List FStep → Event → SegOutcome
  | [], ev => .done { id := ev.id, fields := [] }
  | st :: rest, ev =>
    if isQueueOp st.op then
      if st.responding then .done { id := ev.id, fields := ev.body }
      else .handoff ev rest
    else
      match applyOp classify rc st.op ev with
      | .error e => .failed e
      | .ok ev₁ =>
        if st.responding then .done { id := ev₁.id, fields := ev₁.body }
        else runSeg classify rc rest ev₁

/-- Modelled from the spec: the deployed scheduler draining queue hand-offs —
each consumed message starts an independent consumer context on the rest of
the chain (§4.4); fuel bounds the number of hops (each hand-off strictly
shortens the chain, so `steps.length` fuel always suffices). -/
def drainQ (classify : JVal → JVal) (rc : String → Body → Body) :
    Nat → SegOutcome → Except GError Result
  | _, .done r => .ok r
  | _, .failed e => .error e
  | 0, .handoff _ _ => .error .queueStalled
  | n + 1, .handoff ev rest => drainQ classify rc n (runSeg classify rc rest ev)

/-- Modelled from the spec: the deployed-transport execution path with all
Remote and Queue steps resolved locally: producer context plus scheduled
consumer contexts across queue hops. -/
def deployedRun (classify : JVal → JVal) (rc : String → Body → Body)
    (steps : List FStep) (ev : Event) : Except GError Result :=
  drainQ classify rc steps.length (runSeg classify rc steps ev)

/-- Client-visible response of the mock server's `test` call: a Result, a
not-found mapping of `RouteNotFoundError` (§4.2/§7), or another error. -/
inductive Response where
  | ok : Result → Response
  | notFound : String → Response
  | failed : GError → Response

/-- Modelled from the spec: `to_mock_server().test(path, body)` — resolve the
graph's topology, run router dispatch or the flow walk on the event built
from the request, and map `routeNotFound` to a not-found response. -/
def mockTest (classify : JVal → JVal) (rc : String → Body → Body) (g : Graph)
    (path : List String) (body : Body) (rid : String) : Response :=
  match g.topology with
  | none => .failed .noTopology
  | some .router =>
    match routerServe classify g.routes { path := path, body := body, id := rid } with
    | .ok r => .ok r
    | .error (.routeNotFound k) => .notFound k
    | .error e => .failed e
  | some .flow =>
    match flowRun classify rc g.steps { path := path, body := body, id := rid } with
    | .ok (r, _) => .ok r
    | .error (.routeNotFound k) => .notFound k
    | .error e => .failed e

/-- Modelled from the spec: the opaque Model Handle (§3) a model-server Task
retains after its one-time load. -/
structure ModelHandle where
  modelFile : String

/-- Modelled from the spec: a model-server Task instance — its config (the
model path) and its lazily created retained state (§3 Model Handle, §4.3). -/
structure TaskInst where
  config : String
  state : Option ModelHandle

/-- Modelled from the spec: one-time lazy init of a Task (§4.3): an
uninitialized task runs the expensive `load` once and retains the handle;
an already-initialized task is returned unchanged, and the Boolean reports
whether `load` ran. -/
def initTask (load : String → ModelHandle) (t : TaskInst) : TaskInst × Bool :=
  match t.state with
  | some _ => (t, false)
  | none => ({ t with state := some (load t.config) }, true)

/-- Modelled from the spec: a `handle` call — lazy init on first invocation,
then the handler runs against the retained state (§4.3). -/
def handleTask (load : String → ModelHandle) (infer : ModelHandle → Event → Event)
    (t : TaskInst) (ev : Event) : TaskInst × Event :=
  match initTask load t with
  | (t₁, _) =>
    match t₁.state with
    | some h => (t₁, infer h ev)
    | none => (t₁, ev)

/-- Modelled from the spec: the queue channel (§4.4/§6): an append-only FIFO
log of (partition key, event) messages; the partition key defaults to the
correlation id. -/
structure QueueChan where
  msgs : List (String × Event)

/-- Modelled from the spec: `publish` appends the event under its
correlation id as partition key (§4.4). -/
def publish (q : QueueChan) (ev : Event) : QueueChan :=
  { msgs := q.msgs ++ [(ev.id, ev)] }

/-- Modelled from the spec: `consume` pops the oldest message, delivering it
to the downstream consumer context (§4.4). -/
def consume (q : QueueChan) : Option ((String × Event) × QueueChan) :=
  match q.msgs with
  | [] => none
  | m :: rest => some (m, { msgs := rest })

/-! Helper lemmas about body field updates. -/

theorem lookupF_setField_self (b : Body) (k : String) (v : JVal) :
    lookupF k (setField b k v) = some v := by
  induction b with
  | nil => simp [setField, lookupF]
  | cons hd tl ih =>
    obtain ⟨k₀, v₀⟩ := hd
    by_cases h : k₀ = k
    · subst h; simp [setField, lookupF]
    · simp [setField, lookupF, h, ih]

theorem lookupF_setField_ne (b : Body) (k j : String) (v : JVal) (h : j ≠ k) :
    lookupF j (setField b k v) = lookupF j b := by
  have hkj : ¬k = j := fun hh => h hh.symm
  induction b with
  | nil => simp [setField, lookupF, hkj]
  | cons hd tl ih =>
    obtain ⟨k₀, v₀⟩ := hd
    by_cases h₀ : k₀ = k
    · subst h₀
      simp [setField, lookupF, hkj]
    · simp [setField, lookupF, h₀, ih]

theorem lookupF_updFields_of_notMem (fields : Body) (b : Body) (k : String)
    (h : k ∉ fields.map Prod.fst) :
    lookupF k (updFields b fields) = lookupF k b := by
  induction fields generalizing b with
  | nil => rfl
  | cons hd tl ih =>
    obtain ⟨k₀, v₀⟩ := hd
    simp only [List.map_cons, List.mem_cons] at h
    push_neg at h
    have step : updFields b ((k₀, v₀) :: tl) = updFields (setField b k₀ v₀) tl := rfl
    rw [step, ih _ h.2, lookupF_setField_ne _ _ _ _ h.1]

/-- A total (non-router) operation always continues, preserving path and
correlation id. -/
theorem applyOp_ok_of_total (classify : JVal → JVal) (rc : String → Body → Body)
    (op : Op) (ev : Event) (h : opTotal op = true) :
    ∃ b : Body,
      applyOp classify rc op ev = .ok { path := ev.path, body := b, id := ev.id } := by
  cases op with
  | routerOp routes => simp [opTotal] at h
  | extendOp fields => exact ⟨_, rfl⟩
  | queueOp p => exact ⟨ev.body, rfl⟩
  | remoteOp url => exact ⟨_, rfl⟩
  | handlerOp f => exact ⟨_, rfl⟩

/-- A non-router operation's outcome does not depend on the request path. -/
theorem applyOp_path_indep (classify : JVal → JVal) (rc : String → Body → Body)
    (op : Op) (b : Body) (i : String) (p₁ p₂ : List String)
    (h : isRouterOp op = false) :
    ∃ b' : Body,
      applyOp classify rc op { path := p₁, body := b, id := i } =
        .ok { path := p₁, body := b', id := i } ∧
      applyOp classify rc op { path := p₂, body := b, id := i } =
        .ok { path := p₂, body := b', id := i } := by
  cases op with
  | routerOp routes => simp [isRouterOp] at h
  | extendOp fields => exact ⟨_, rfl, rfl⟩
  | queueOp p => exact ⟨b, rfl, rfl⟩
  | remoteOp url => exact ⟨_, rfl, rfl⟩
  | handlerOp f => exact ⟨_, rfl, rfl⟩

/-- C4: a second `set_topology` call with a different topology kind, after
steps already exist, fails with the topology-conflict error and the graph's
topology tag keeps the first value set. -/
theorem set_topology_second_conflicts (g : Graph) (t₁ t₂ : Topology)
    (hset : g.topology = some t₁) (hne : t₂ ≠ t₁)
    (_hsteps : g.routes ≠ [] ∨ g.steps ≠ []) :
    set_topology g t₂ = .error .topologyConflict ∧ g.topology = some t₁ := by
  refine ⟨?_, hset⟩
  simp [set_topology, hset, hne]

/-- Witness for C4 at a concrete router graph holding route `model1`. -/
theorem set_topology_second_conflicts_witness :
    ({ topology := some Topology.router, routes := ["model1"] } : Graph).topology
        = some Topology.router ∧
    Topology.flow ≠ Topology.router ∧
    ({ topology := some Topology.router, routes := ["model1"] } : Graph).routes ≠ [] ∧
    set_topology { topology := some Topology.router, routes := ["model1"] }
        Topology.flow = .error .topologyConflict :=
  ⟨rfl, by decide, by decide,
    (set_topology_second_conflicts
      { topology := some Topology.router, routes := ["model1"] }
      Topology.router Topology.flow rfl (by decide) (Or.inl (by decide))).1⟩

/-- C5: an Event published to a Queue is appended under its correlation id
as partition key, and the downstream consume returns that very event: the
correlation id and the body are preserved exactly. -/
theorem queue_roundtrip_preserves_event (ev : Event) (q : QueueChan) :
    (publish q ev).msgs = q.msgs ++ [(ev.id, ev)] ∧
    consume (publish { msgs := [] } ev) = some ((ev.id, ev), { msgs := [] }) ∧
    (consume (publish { msgs := [] } ev)).map (fun m => m.1.2.id) = some ev.id ∧
    (consume (publish { msgs := [] } ev)).map (fun m => m.1.2.body) = some ev.body :=
  ⟨rfl, rfl, rfl, rfl⟩

/-- C6: a Task's `init` runs exactly once — the first `handle` call performs
the load and retains the handle, re-invoking `init` on the already-loaded
task reports that the load did not run and leaves the state untouched, and
every subsequent `handle` call runs against that identical retained state. -/
theorem init_runs_exactly_once (load : String → ModelHandle)
    (infer : ModelHandle → Event → Event) (cfg : String) (ev₁ ev₂ : Event) :
    (handleTask load infer { config := cfg, state := none } ev₁).1
        = { config := cfg, state := some (load cfg) } ∧
    initTask load { config := cfg, state := some (load cfg) }
        = ({ config := cfg, state := some (load cfg) }, false) ∧
    (handleTask load infer { config := cfg, state := some (load cfg) } ev₂).1
        = { config := cfg, state := some (load cfg) } ∧
    (handleTask load infer { config := cfg, state := some (load cfg) } ev₂).2
        = infer (load cfg) ev₂ :=
  ⟨rfl, rfl, rfl, rfl⟩

/-- C1: on a Router-topology Graph holding route `model1` (bound to a
`ClassifierModel` Task whose per-row prediction is `classify`), invoking
`/v2/models/model1/infer` with an `inputs` body returns a Result whose
`model_name` field equals `model1` and whose `outputs` list has exactly one
entry per input row. -/
theorem router_graph_infer_model1 (classify : JVal → JVal) (rc : String → Body → Body)
    (g : Graph) (rows : List JVal) (rid : String)
    (htop : g.topology = some Topology.router) (hroute : "model1" ∈ g.routes) :
    ∃ outs : List JVal,
      mockTest classify rc g ["v2", "models", "model1", "infer"]
          [("inputs", JVal.arr rows)] rid =
        Response.ok { id := rid
                      fields := [("model_name", JVal.str "model1"),
                                 ("outputs", JVal.arr outs)] } ∧
      outs.length = rows.length := by
  refine ⟨rows.map classify, ?_, by simp⟩
  simp [mockTest, htop, routerServe, extractRouteKey, hroute, getInputs, lookupF]

/-- Witness for C1 at a concrete one-route graph and a one-row body. -/
theorem router_graph_infer_model1_witness :
    ({ topology := some Topology.router, routes := ["model1"] } : Graph).topology
        = some Topology.router ∧
    "model1" ∈ ({ topology := some Topology.router, routes := ["model1"] } : Graph).routes ∧
    ∃ outs : List JVal,
      mockTest (fun v => v) (fun _ b => b)
          { topology := some Topology.router, routes := ["model1"] }
          ["v2", "models", "model1", "infer"]
          [("inputs", JVal.arr [JVal.arr [JVal.int 5, JVal.int 3, JVal.int 1, JVal.int 0]])]
          "rid1" =
        Response.ok { id := "rid1"
                      fields := [("model_name", JVal.str "model1"),
                                 ("outputs", JVal.arr outs)] } ∧
      outs.length = [JVal.arr [JVal.int 5, JVal.int 3, JVal.int 1, JVal.int 0]].length :=
  ⟨rfl, by simp,
    router_graph_infer_model1 (fun v => v) (fun _ b => b)
      { topology := some Topology.router, routes := ["model1"] }
      [JVal.arr [JVal.int 5, JVal.int 3, JVal.int 1, JVal.int 0]] "rid1" rfl (by simp)⟩

/-- C7: invoking a Router-topology Graph with the unregistered route key
`model2` yields the not-found response mapped from `routeNotFound` — the
dispatch function is total, so the serving process does not crash. -/
theorem router_unknown_route_not_found (classify : JVal → JVal)
    (rc : String → Body → Body) (g : Graph) (body : Body) (rid : String)
    (htop : g.topology = some Topology.router) (hmiss : "model2" ∉ g.routes) :
    mockTest classify rc g ["v2", "models", "model2", "infer"] body rid =
      Response.notFound "model2" := by
  simp [mockTest, htop, routerServe, extractRouteKey, hmiss]

/-- Witness for C7 at a concrete graph registering only `model1`. -/
theorem router_unknown_route_not_found_witness :
    ({ topology := some Topology.router, routes := ["model1"] } : Graph).topology
        = some Topology.router ∧
    "model2" ∉ ({ topology := some Topology.router, routes := ["model1"] } : Graph).routes ∧
    mockTest (fun v => v) (fun _ b => b)
        { topology := some Topology.router, routes := ["model1"] }
        ["v2", "models", "model2", "infer"] [("inputs", JVal.arr [])] "rid7" =
      Response.notFound "model2" :=
  ⟨rfl, by simp,
    router_unknown_route_not_found (fun v => v) (fun _ b => b)
      { topology := some Topology.router, routes := ["model1"] }
      [("inputs", JVal.arr [])] "rid7" rfl (by simp)⟩

/-- C10 counterexample: on a body that already holds the key `tag`, the
`storey.Extend` step configured with the field `tag := "something"` changes
that pre-existing key's value, so "leaves every pre-existing key of the
body unchanged" is false at this input. -/
theorem extend_overwrites_colliding_key :
    lookupF "tag" [("tag", JVal.str "x"), ("inputs", JVal.arr [])] = some (JVal.str "x") ∧
    applyOp (fun v => v) (fun _ b => b) (Op.extendOp [("tag", JVal.str "something")])
        { path := ["v2", "models", "my_model", "infer"]
          body := [("tag", JVal.str "x"), ("inputs", JVal.arr [])]
          id := "id0" } =
      .ok { path := ["v2", "models", "my_model", "infer"]
            body := [("tag", JVal.str "something"), ("inputs", JVal.arr [])]
            id := "id0" } ∧
    lookupF "tag" [("tag", JVal.str "something"), ("inputs", JVal.arr [])]
      ≠ some (JVal.str "x") := by
  refine ⟨rfl, rfl, ?_⟩
  intro h
  simp [lookupF] at h

/-- C10 (amended): the `storey.Extend` step with `tag := "something"` sets
the key `tag` to `"something"` in the event body and leaves every
pre-existing key other than `tag` unchanged. -/
theorem extend_adds_tag_preserves_others (classify : JVal → JVal)
    (rc : String → Body → Body) (ev : Event) (k : String) (hk : k ≠ "tag") :
    applyOp classify rc (Op.extendOp [("tag", JVal.str "something")]) ev =
      .ok { ev with body := setField ev.body "tag" (JVal.str "something") } ∧
    lookupF "tag" (setField ev.body "tag" (JVal.str "something"))
      = some (JVal.str "something") ∧
    lookupF k (setField ev.body "tag" (JVal.str "something")) = lookupF k ev.body :=
  ⟨rfl, lookupF_setField_self _ _ _, lookupF_setField_ne _ _ _ _ hk⟩

/-- Witness for the amended C10 at the notebook's two-row `inputs` body and
the pre-existing key `inputs`. -/
theorem extend_adds_tag_preserves_others_witness :
    ("inputs" : String) ≠ "tag" ∧
    (applyOp (fun v => v) (fun _ b => b) (Op.extendOp [("tag", JVal.str "something")])
        { path := ["v2", "models", "my_model", "infer"]
          body := [("inputs", JVal.arr [JVal.arr [JVal.int 5], JVal.arr [JVal.int 7]])]
          id := "id10" } =
      .ok { path := ["v2", "models", "my_model", "infer"]
            body := setField [("inputs", JVal.arr [JVal.arr [JVal.int 5], JVal.arr [JVal.int 7]])]
                      "tag" (JVal.str "something")
            id := "id10" } ∧
    lookupF "tag"
        (setField [("inputs", JVal.arr [JVal.arr [JVal.int 5], JVal.arr [JVal.int 7]])]
          "tag" (JVal.str "something"))
      = some (JVal.str "something") ∧
    lookupF "inputs"
        (setField [("inputs", JVal.arr [JVal.arr [JVal.int 5], JVal.arr [JVal.int 7]])]
          "tag" (JVal.str "something"))
      = lookupF "inputs" [("inputs", JVal.arr [JVal.arr [JVal.int 5], JVal.arr [JVal.int 7]])]) :=
  ⟨by decide,
    extend_adds_tag_preserves_others (fun v => v) (fun _ b => b)
      { path := ["v2", "models", "my_model", "infer"]
        body := [("inputs", JVal.arr [JVal.arr [JVal.int 5], JVal.arr [JVal.int 7]])]
        id := "id10" } "inputs" (by decide)⟩

/-- C2: a Flow-topology Graph of shape start → enrich → router (the enrich
step is the tag-adding `storey.Extend`, the router responds and holds route
`m1`), invoked at `/v2/models/m1/infer` with a two-row `inputs` body,
returns a Result whose `outputs` list has length 2. -/
theorem flow_router_two_rows (classify : JVal → JVal) (rc : String → Body → Body)
    (tagv r₁ r₂ : JVal) (routes : List String) (rid : String)
    (hroute : "m1" ∈ routes) :
    ∃ outs : List JVal,
      mockTest classify rc
          { topology := some Topology.flow
            steps := [{ name := "enrich", op := .extendOp [("tag", tagv)], responding := false },
                      { name := "router", op := .routerOp routes, responding := true }] }
          ["v2", "models", "m1", "infer"] [("inputs", JVal.arr [r₁, r₂])] rid =
        Response.ok { id := rid
                      fields := [("model_name", JVal.str "m1"),
                                 ("outputs", JVal.arr outs)] } ∧
      outs.length = 2 := by
  refine ⟨[r₁, r₂].map classify, ?_, by simp⟩
  simp [mockTest, flowRun, applyOp, routerServe, extractRouteKey, hroute, getInputs,
    updFields, setField, lookupF]

/-- Witness for C2 at the notebook's concrete route table and rows. -/
theorem flow_router_two_rows_witness :
    "m1" ∈ ["m1"] ∧
    ∃ outs : List JVal,
      mockTest (fun v => v) (fun _ b => b)
          { topology := some Topology.flow
            steps := [{ name := "enrich", op := .extendOp [("tag", JVal.str "something")],
                        responding := false },
                      { name := "router", op := .routerOp ["m1"], responding := true }] }
          ["v2", "models", "m1", "infer"]
          [("inputs", JVal.arr [JVal.arr [JVal.int 5], JVal.arr [JVal.int 7]])] "rid2" =
        Response.ok { id := "rid2"
                      fields := [("model_name", JVal.str "m1"),
                                 ("outputs", JVal.arr outs)] } ∧
      outs.length = 2 :=
  ⟨by simp,
    flow_router_two_rows (fun v => v) (fun _ b => b) (JVal.str "something")
      (JVal.arr [JVal.int 5]) (JVal.arr [JVal.int 7]) ["m1"] "rid2" (by simp)⟩

/-- C9: a Flow Graph with no responding step and no (fallible) nested router
on the path returns a Result holding only the correlation id — empty fields,
so neither `model_name` nor `outputs` — while still executing every step on
the path, in order. -/
theorem flow_no_respond_returns_id_only (classify : JVal → JVal)
    (rc : String → Body → Body) (steps : List FStep) (ev : Event)
    (hresp : ∀ st ∈ steps, st.responding = false)
    (htot : ∀ st ∈ steps, opTotal st.op = true) :
    flowRun classify rc steps ev =
      .ok ({ id := ev.id, fields := [] }, steps.map FStep.name) := by
  induction steps generalizing ev with
  | nil => rfl
  | cons st rest ih =>
    obtain ⟨b, hb⟩ :=
      applyOp_ok_of_total classify rc st.op ev (htot st (List.mem_cons_self st rest))
    have hr : st.responding = false := hresp st (List.mem_cons_self st rest)
    have ih' := ih { path := ev.path, body := b, id := ev.id }
      (fun s hs => hresp s (List.mem_cons_of_mem st hs))
      (fun s hs => htot s (List.mem_cons_of_mem st hs))
    simp [flowRun, hb, hr, ih']

/-- Witness for C9 at the notebook's enrich → input_stream → echo →
output_stream chain (no `respond()` anywhere). -/
theorem flow_no_respond_returns_id_only_witness :
    (∀ st ∈ [({ name := "enrich", op := .extendOp [("tag", JVal.str "something")],
                responding := false } : FStep),
              { name := "input_stream", op := .queueOp "in-stream", responding := false },
              { name := "echo", op := .handlerOp (fun b => b), responding := false },
              { name := "output_stream", op := .queueOp "out-stream", responding := false }],
        st.responding = false) ∧
    (∀ st ∈ [({ name := "enrich", op := .extendOp [("tag", JVal.str "something")],
                responding := false } : FStep),
              { name := "input_stream", op := .queueOp "in-stream", responding := false },
              { name := "echo", op := .handlerOp (fun b => b), responding := false },
              { name := "output_stream", op := .queueOp "out-stream", responding := false }],
        opTotal st.op = true) ∧
    flowRun (fun v => v) (fun _ b => b)
        [{ name := "enrich", op := .extendOp [("tag", JVal.str "something")],
           responding := false },
         { name := "input_stream", op := .queueOp "in-stream", responding := false },
         { name := "echo", op := .handlerOp (fun b => b), responding := false },
         { name := "output_stream", op := .queueOp "out-stream", responding := false }]
        { path := ["v2", "models", "my_model", "infer"]
          body := [("inputs", JVal.arr [JVal.arr [JVal.int 5], JVal.arr [JVal.int 7]])]
          id := "rid9" } =
      .ok ({ id := "rid9", fields := [] },
           ["enrich", "input_stream", "echo", "output_stream"]) := by
  refine ⟨?_, ?_, ?_⟩
  · intro st hst
    simp only [List.mem_cons, List.not_mem_nil, or_false] at hst
    rcases hst with rfl | rfl | rfl | rfl <;> rfl
  · intro st hst
    simp only [List.mem_cons, List.not_mem_nil, or_false] at hst
    rcases hst with rfl | rfl | rfl | rfl <;> rfl
  · exact flow_no_respond_returns_id_only (fun v => v) (fun _ b => b) _ _
      (by intro st hst
          simp only [List.mem_cons, List.not_mem_nil, or_false] at hst
          rcases hst with rfl | rfl | rfl | rfl <;> rfl)
      (by intro st hst
          simp only [List.mem_cons, List.not_mem_nil, or_false] at hst
          rcases hst with rfl | rfl | rfl | rfl <;> rfl)

/-- C8: on a Flow Graph in which no router step occurs, the
model-or-route-name path segment (indeed the whole request path) is
ignored: two invocations with the same body and correlation id but
different paths execute the same steps and produce the same terminal
Result. -/
theorem flow_ignores_route_segment (classify : JVal → JVal)
    (rc : String → Body → Body) (steps : List FStep) (b : Body) (i : String)
    (p₁ p₂ : List String) (h : ∀ st ∈ steps, isRouterOp st.op = false) :
    flowRun classify rc steps { path := p₁, body := b, id := i } =
      flowRun classify rc steps { path := p₂, body := b, id := i } := by
  induction steps generalizing b with
  | nil => rfl
  | cons st rest ih =>
    obtain ⟨b', h₁, h₂⟩ :=
      applyOp_path_indep classify rc st.op b i p₁ p₂ (h st (List.mem_cons_self st rest))
    have ih' := ih b' (fun s hs => h s (List.mem_cons_of_mem st hs))
    simp [flowRun, h₁, h₂, ih']

/-- Witness for C8 at the notebook's enrich → `$remote` chain, under two
paths differing in the model-name segment. -/
theorem flow_ignores_route_segment_witness :
    (∀ st ∈ [({ name := "enrich", op := .extendOp [("tag", JVal.str "something")],
                responding := false } : FStep),
              { name := "remote_func", op := .remoteOp "v2/models/model1/infer",
                responding := true }],
        isRouterOp st.op = false) ∧
    flowRun (fun v => v)
        (fun _ _ => [("model_name", JVal.str "model1"),
                     ("outputs", JVal.arr [JVal.int 0, JVal.int 2])])
        [{ name := "enrich", op := .extendOp [("tag", JVal.str "something")],
           responding := false },
         { name := "remote_func", op := .remoteOp "v2/models/model1/infer",
           responding := true }]
        { path := ["v2", "models", "my_model", "infer"]
          body := [("inputs", JVal.arr [JVal.arr [JVal.int 5], JVal.arr [JVal.int 7]])]
          id := "rid8" } =
      flowRun (fun v => v)
        (fun _ _ => [("model_name", JVal.str "model1"),
                     ("outputs", JVal.arr [JVal.int 0, JVal.int 2])])
        [{ name := "enrich", op := .extendOp [("tag", JVal.str "something")],
           responding := false },
         { name := "remote_func", op := .remoteOp "v2/models/model1/infer",
           responding := true }]
        { path := ["v2", "models", "another_model", "infer"]
          body := [("inputs", JVal.arr [JVal.arr [JVal.int 5], JVal.arr [JVal.int 7]])]
          id := "rid8" } := by
  refine ⟨?_, ?_⟩
  · intro st hst
    simp only [List.mem_cons, List.not_mem_nil, or_false] at hst
    rcases hst with rfl | rfl <;> rfl
  · exact flow_ignores_route_segment (fun v => v) _ _ _ "rid8"
      ["v2", "models", "my_model", "infer"] ["v2", "models", "another_model", "infer"]
      (by intro st hst
          simp only [List.mem_cons, List.not_mem_nil, or_false] at hst
          rcases hst with rfl | rfl <;> rfl)

/-- With enough fuel (the chain never needs more hops than its length), the
deployed scheduler draining queue hand-offs computes exactly the inline
harness's terminal Result. -/
theorem drainQ_runSeg_eq (classify : JVal → JVal) (rc : String → Body → Body)
    (steps : List FStep) :
    ∀ n (ev : Event), steps.length ≤ n →
      drainQ classify rc n (runSeg classify rc steps ev) = mockRun classify rc steps ev := by
  induction steps with
  | nil => intro n ev _; simp [runSeg, drainQ, mockRun, flowRun, Except.map]
  | cons st rest ih =>
    intro n ev hn
    have hn' : rest.length ≤ n := by
      simp only [List.length_cons] at hn; omega
    cases hq : isQueueOp st.op with
    | true =>
      have hap : applyOp classify rc st.op ev = .ok ev := by
        cases hop : st.op <;> simp [isQueueOp, hop] at hq ⊢ <;> rfl
      cases hr : st.responding with
      | true => simp [runSeg, drainQ, mockRun, flowRun, hq, hr, hap, Except.map]
      | false =>
        cases n with
        | zero => simp at hn
        | succ m =>
          have hm : rest.length ≤ m := by
            simp only [List.length_cons] at hn; omega
          have ihm := ih m ev hm
          simp only [runSeg, hq, hr, if_true, if_false, Bool.false_eq_true,
            ite_false, ite_true, drainQ]
          rw [ihm]
          simp only [mockRun, flowRun, hap, hr]
          cases hfr : flowRun classify rc rest ev with
          | error e => simp [mockRun, hfr, Except.map]
          | ok p => obtain ⟨r, tr⟩ := p; simp [mockRun, hfr, Except.map]
    | false =>
      cases hap : applyOp classify rc st.op ev with
      | error e => simp [runSeg, drainQ, mockRun, flowRun, hq, hap, Except.map]
      | ok ev₁ =>
        cases hr : st.responding with
        | true => simp [runSeg, drainQ, mockRun, flowRun, hq, hap, hr, Except.map]
        | false =>
          have ihm := ih n ev₁ hn'
          simp only [runSeg, hq, hr, Bool.false_eq_true, ite_false, hap]
          rw [ihm]
          simp only [mockRun, flowRun, hap, hr]
          cases hfr : flowRun classify rc rest ev₁ with
          | error e => simp [mockRun, hfr, Except.map]
          | ok p => obtain ⟨r, tr⟩ := p; simp [mockRun, hfr, Except.map]

/-- C3: for every Flow Graph whose Remote and Queue steps resolve locally
(the shared transport `rc` resolves remote calls in-process, and a queue hop
hands the event to a locally scheduled consumer context), the Local
Simulation Harness's inline run and the deployed-transport run produce the
same terminal Result for the same input Event. -/
theorem mock_run_equals_deployed_run (classify : JVal → JVal)
    (rc : String → Body → Body) (steps : List FStep) (ev : Event) :
    mockRun classify rc steps ev = deployedRun classify rc steps ev := by
  have h := drainQ_runSeg_eq classify rc steps steps.length ev (le_refl _)
  simp [deployedRun, h]

end MLServing
